import Mathlib

/-!
Verification of the AndBug JDWP packet processor (`andbug/process.py`).

The transport is modelled as a `World`: a list of bytes still to be read
(`input`) and the list of bytes written so far (`output`).  Bytes are `Nat`
values below 256.  Python exceptions become an error sum type carried in
`Except`; since written bytes persist when an exception propagates, each
fallible operation returns the `World` alongside the `Except`.

The wire codec (`andbug.jdwp.JdwpBuffer`) is a collaborator whose code is not
part of the processor source; its pack/unpack behaviour is modelled from the
specification (big-endian fixed-width integer fields).
-/

/-- A byte is a natural number; packing reduces values mod 256 per byte. -/
abbrev Byte := Nat

/-- Modelled from the spec: the wire codec packs a `w`-byte big-endian
integer field; the codec itself (`andbug.jdwp`) is not under the processor
source.  Most significant byte first. -/
def packBE : Nat → Nat → List Byte
  | 0, _ => []
  | w + 1, v => (v / 256 ^ w % 256) :: packBE w v

/-- Modelled from the spec: big-endian unpacking of an integer field. -/
def unpackBE : List Byte → Nat
  | [] => 0
  | b :: bs => b * 256 ^ bs.length + unpackBE bs

/-- Modelled from the spec: `JdwpBuffer.pack(format, values)` over a format
given as the list of field byte-widths (the source's `'4412'` is `[4,4,1,2]`,
`'iiiii'` is `[4,4,4,4,4]`). -/
def packFmt : List Nat → List Nat → List Byte
  | [], _ => []
  | _ :: _, [] => []
  | w :: ws, v :: vs => packBE w v ++ packFmt ws vs

/-- Modelled from the spec: `JdwpBuffer.unpack(format, bytes)`. -/
def unpackFmt : List Nat → List Byte → List Nat
  | [], _ => []
  | w :: ws, bs => unpackBE (bs.take w) :: unpackFmt ws (bs.drop w)

/-- The wire codec object: its only processor-visible state is the set of
configured identifier widths (`config(*sizes)`). -/
structure JdwpBuffer where
  sizes : List Nat
deriving Repr, DecidableEq

/-- A fresh codec, before capability negotiation. -/
def JdwpBuffer.init : JdwpBuffer := ⟨[]⟩

/-- The transport: bytes still readable, and bytes written so far. -/
structure World where
  input : List Byte
  output : List Byte
deriving Repr, DecidableEq

/-- Python exceptions raised by the processor.  `nameError s` models a
`NameError` on the undefined name `s` (see `HandshakeError.__init__`, which
calls `Error.__init__` although no name `Error` is in scope, so constructing
the exception raises `NameError` instead). -/
inductive PErr where
  | handshakeError : PErr
  | nameError : String → PErr
  | protocolError : String → PErr
deriving Repr, DecidableEq

/-- The handshake token `'JDWP-Handshake'` as bytes. -/
def HANDSHAKE_MSG : List Byte :=
  [74, 68, 87, 80, 45, 72, 97, 110, 100, 115, 104, 97, 107, 101]

/-- The header format `'4412'`: int32 length, int32 id, uint8 flags,
uint16 code. -/
def HEADER_FORMAT : List Nat := [4, 4, 1, 2]

/-- The literal bootstrap id-size request packet from the source:
length 11, id 1, flags 0, command-set 1, command 7, empty body. -/
def IDSZ_REQ : List Byte :=
  [0x00, 0x00, 0x00, 0x0B,
   0x00, 0x00, 0x00, 0x01,
   0x00,
   0x01, 0x07]

/-- State of a `Process` instance: the two codec objects, the
`initialized` flag and the request id counter. -/
structure Process where
  xmitbuf : JdwpBuffer
  recvbuf : JdwpBuffer
  initialized : Bool
  nextId : Nat
deriving Repr, DecidableEq

/-- Constructor `Process.__init__`: fresh codecs, not initialized, id counter seeded
at 3. -/
def Process.init : Process :=
  { xmitbuf := JdwpBuffer.init, recvbuf := JdwpBuffer.init
    initialized := false, nextId := 3 }

/-- The unpacked header `[size, id, flags, event]` returned by `readHeader`;
`size` is the raw length field minus 11, an integer because the subtraction
is performed on an unbounded Python int. -/
structure Header where
  size : Int
  ident : Nat
  flags : Nat
  code : Nat
deriving Repr, DecidableEq

/-- Transport `read(n)`: consume the next `n` bytes of the transport. -/
def World.readBytes (w : World) (n : Nat) : List Byte × World :=
  (w.input.take n, { w with input := w.input.drop n })

/-- Transport `write(bytes)`: append to the transport's written stream. -/
def World.writeBytes (w : World) (bs : List Byte) : World :=
  { w with output := w.output ++ bs }

/-- Method `Process.writeHandshake`: write the fixed handshake token. -/
def Process.writeHandshake (w : World) : World :=
  w.writeBytes HANDSHAKE_MSG

/-- Method `Process.readHandshake`: read `len(HANDSHAKE_MSG)` bytes and compare.
On mismatch the source executes `raise HandshakeError()`, whose
`__init__` refers to the undefined name `Error`, so what actually
propagates is a `NameError`. -/
def Process.readHandshake (w : World) : Except PErr Unit × World :=
  let (data, w') := w.readBytes HANDSHAKE_MSG.length
  if data = HANDSHAKE_MSG then (.ok (), w')
  else (.error (.nameError "Error"), w')

/-- Method `Process.writeIdSzReq`: write the literal bootstrap request; the
instance state (in particular `nextId`) is untouched. -/
def Process.writeIdSzReq (p : Process) (w : World) : Process × World :=
  (p, w.writeBytes IDSZ_REQ)

/-- Method `Process.readHeader`: read 11 bytes, unpack with format `'4412'`, and
subtract 11 from the length field. -/
def Process.readHeader (w : World) : Header × World :=
  let (head, w') := w.readBytes 11
  let data := unpackFmt HEADER_FORMAT head
  ({ size := (data.getD 0 0 : Int) - 11
     ident := data.getD 1 0
     flags := data.getD 2 0
     code := data.getD 3 0 }, w')

/-- Method `Process.readContent`: read `size` body bytes. -/
def Process.readContent (w : World) (size : Nat) : List Byte × World :=
  w.readBytes size

/-- Method `Process.readIdSzRes`: read the bootstrap reply header, validate it
(body size 20, flags exactly 0x80, id 1, in that order), then read 20 body
bytes, unpack five 32-bit widths and configure both codecs with them. -/
def Process.readIdSzRes (p : Process) (w : World) :
    Except PErr Process × World :=
  let (head, w1) := Process.readHeader w
  if head.size ≠ 20 then
    (.error (.protocolError "expected size of an idsize response"), w1)
  else if head.flags ≠ 0x80 then
    (.error (.protocolError "expected first server message to be a response"), w1)
  else if head.ident ≠ 1 then
    (.error (.protocolError "expected first server message to be 1"), w1)
  else
    let (body, w2) := w1.readBytes 20
    let sizes := unpackFmt [4, 4, 4, 4, 4] body
    (.ok { p with recvbuf := ⟨sizes⟩, xmitbuf := ⟨sizes⟩ }, w2)

/-- Method `Process.writeHeader`: take the current `nextId`, advance the counter
by 2, add 11 to the body size, pack the header with format `'4412'`, write
it, and return the id that was embedded. -/
def Process.writeHeader (size flags event : Nat) (p : Process) (w : World) :
    Nat × Process × World :=
  let ident := p.nextId
  let p' := { p with nextId := p.nextId + 2 }
  let data := packFmt HEADER_FORMAT [size + 11, ident, flags, event]
  (ident, p', w.writeBytes data)

/-- A `Content` value as the processor sees it: its code, its flags, and
the body bytes its `packTo` serializes through the codec. -/
structure Content where
  code : Nat
  flags : Nat
  body : List Byte
deriving Repr, DecidableEq

/-- Method `Process.writeContent`: serialize the body, measure it, write the
header (which embeds the next id), then write the body. -/
def Process.writeContent (c : Content) (p : Process) (w : World) :
    Process × World :=
  let data := c.body
  let size := data.length
  let (_, p', w') := Process.writeHeader size c.flags c.code p w
  (p', w'.writeBytes data)

/-- Method `Process.start`: if not yet initialized, perform the handshake
exchange, the bootstrap request and reply, and mark the instance
initialized; a second call does nothing.  (Spawning the reader thread is
outside the byte-level model.) -/
def Process.start (p : Process) (w : World) : Except PErr Process × World :=
  if p.initialized then (.ok p, w)
  else
    let w1 := Process.writeHandshake w
    match Process.readHandshake w1 with
    | (.error e, w2) => (.error e, w2)
    | (.ok _, w2) =>
      let (p3, w3) := Process.writeIdSzReq p w2
      match Process.readIdSzRes p3 w3 with
      | (.error e, w4) => (.error e, w4)
      | (.ok p4, w4) => (.ok { p4 with initialized := true }, w4)

/-- Outcome of the reader loop: replies delivered to pending calls
(id, response code, body), events handed to the sink (code, body), the
remaining pending-table ids, and the unread trailing bytes. -/
structure RunResult where
  delivered : List (Nat × Nat × List Byte)
  events : List (Nat × List Byte)
  pending : List Nat
  leftover : List Byte
deriving Repr, DecidableEq

/-- Modelled from the spec: `Process.run` is a stub (`pass`) in the source;
§4.4's inbound path is modelled here.  Repeatedly: read one 11-byte header,
read exactly the header's body length in bytes, classify by flag bit 0x80;
a reply is delivered to the pending call with the matching id (removing it
from the table) or silently dropped when no entry matches; a packet with
the flag bit clear is appended to the event stream.  The loop runs for the
whole lifetime of the session, i.e. while a full header is available. -/
def Process.run (pend : List Nat) (input : List Byte) : RunResult :=
  if h : input.length < 11 then ⟨[], [], pend, input⟩
  else
    let hd := (Process.readHeader ⟨input, []⟩).1
    let size := hd.size.toNat
    let body := (input.drop 11).take size
    let rest := (input.drop 11).drop size
    if hd.flags &&& 0x80 = 0x80 then
      if hd.ident ∈ pend then
        let r := Process.run (pend.erase hd.ident) rest
        ⟨(hd.ident, hd.code, body) :: r.delivered, r.events, r.pending, r.leftover⟩
      else
        Process.run pend rest
    else
      let r := Process.run pend rest
      ⟨r.delivered, (hd.code, body) :: r.events, r.pending, r.leftover⟩
termination_by input.length
decreasing_by
  all_goals simp only [List.length_drop]; omega

/-! ### Codec lemmas -/

theorem length_packBE (w v : Nat) : (packBE w v).length = w := by
  induction w generalizing v with
  | zero => rfl
  | succ w ih => simp [packBE, ih]

theorem unpackBE_packBE (w v : Nat) : unpackBE (packBE w v) = v % 256 ^ w := by
  induction w generalizing v with
  | zero => simp [packBE, unpackBE, Nat.mod_one]
  | succ w ih =>
    have hdecomp : v % 256 ^ (w + 1) = 256 ^ w * (v / 256 ^ w % 256) + v % 256 ^ w := by
      have h1 : v % 256 ^ (w + 1) / 256 ^ w = v / 256 ^ w % 256 := by
        rw [pow_succ]
        exact Nat.mod_mul_right_div_self v (256 ^ w) 256
      have h2 : v % 256 ^ (w + 1) % 256 ^ w = v % 256 ^ w :=
        Nat.mod_mod_of_dvd v (pow_dvd_pow 256 (Nat.le_succ w))
      have h3 := Nat.div_add_mod (v % 256 ^ (w + 1)) (256 ^ w)
      rw [h1, h2] at h3
      omega
    simp only [packBE, unpackBE, length_packBE, ih, hdecomp]
    ring

theorem take_append_of_length (l₁ l₂ : List Byte) (n : Nat) (h : l₁.length = n) :
    (l₁ ++ l₂).take n = l₁ := by
  subst h; exact List.take_left l₁ l₂

theorem drop_append_of_length (l₁ l₂ : List Byte) (n : Nat) (h : l₁.length = n) :
    (l₁ ++ l₂).drop n = l₂ := by
  subst h; exact List.drop_left l₁ l₂

theorem unpackFmt_packFmt (ws vs : List Nat) (rest : List Byte)
    (h : vs.length = ws.length) :
    unpackFmt ws (packFmt ws vs ++ rest) =
      List.zipWith (fun w v => v % 256 ^ w) ws vs := by
  induction ws generalizing vs rest with
  | nil => simp [unpackFmt, packFmt]
  | cons w ws ih =>
    cases vs with
    | nil => simp at h
    | cons v vs =>
      simp only [List.length_cons, Nat.succ.injEq] at h
      simp only [packFmt, unpackFmt, List.append_assoc,
        take_append_of_length (packBE w v) _ w (length_packBE w v),
        drop_append_of_length (packBE w v) _ w (length_packBE w v),
        unpackBE_packBE, ih vs rest h, List.zipWith_cons_cons]

theorem length_packFmt_header (a b c d : Nat) :
    (packFmt HEADER_FORMAT [a, b, c, d]).length = 11 := by
  simp [packFmt, HEADER_FORMAT, length_packBE]

/-- Reading a header from a stream that starts with a packed header
recovers the four fields (length reduced by 11) and consumes 11 bytes. -/
theorem readHeader_packFmt (len ident flags code : Nat)
    (rest outp : List Byte) (hl : len < 256 ^ 4) (hi : ident < 256 ^ 4)
    (hf : flags < 256 ^ 1) (hc : code < 256 ^ 2) :
    Process.readHeader ⟨packFmt HEADER_FORMAT [len, ident, flags, code] ++ rest, outp⟩ =
      ({ size := (len : Int) - 11, ident := ident, flags := flags, code := code },
       ⟨rest, outp⟩) := by
  have hlen := length_packFmt_header len ident flags code
  have hunp : unpackFmt HEADER_FORMAT (packFmt HEADER_FORMAT [len, ident, flags, code]) =
      [len, ident, flags, code] := by
    have := unpackFmt_packFmt HEADER_FORMAT [len, ident, flags, code] [] (by rfl)
    rw [List.append_nil] at this
    rw [this]
    norm_num at hl hi hf hc
    simp only [HEADER_FORMAT, List.zipWith_cons_cons, List.zipWith_nil_right]
    norm_num [Nat.mod_eq_of_lt hl, Nat.mod_eq_of_lt hi,
      Nat.mod_eq_of_lt hf, Nat.mod_eq_of_lt hc]
  simp [Process.readHeader, World.readBytes,
    take_append_of_length _ _ 11 hlen, drop_append_of_length _ _ 11 hlen, hunp]

/-- Issuing a sequence of requests: each one goes through
`Process.writeHeader`; the returned ids are collected in order. -/
def Process.writeRequests :
    List (Nat × Nat × Nat) → Process → World → List Nat × Process × World
  | [], p, w => ([], p, w)
  | (s, f, c) :: rest, p, w =>
    let (i, p', w') := Process.writeHeader s f c p w
    let (ids, p'', w'') := Process.writeRequests rest p' w'
    (i :: ids, p'', w'')

theorem writeRequests_ids (reqs : List (Nat × Nat × Nat)) (p : Process) (w : World) :
    (Process.writeRequests reqs p w).1 =
      (List.range reqs.length).map (fun k => p.nextId + 2 * k) := by
  induction reqs generalizing p w with
  | nil => simp [Process.writeRequests]
  | cons r rest ih =>
    obtain ⟨s, f, c⟩ := r
    simp only [Process.writeRequests, Process.writeHeader, List.length_cons,
      List.range_succ_eq_map, List.map_cons, List.map_map, ih,
      List.cons.injEq, Nat.mul_zero, Nat.add_zero, true_and]
    exact List.map_congr_left fun k _ => by simp only [Function.comp_apply]; omega

/-! ### Claim theorems -/

/-- C7: `writeIdSzReq` writes exactly the fixed, literal 11-byte bootstrap
packet — length field 11, id 1, flags 0x00, command-set 1, command 7
(code 0x0107), zero-byte body — and neither consults nor advances the id
counter: the instance state is returned untouched, so a fresh process
still has `nextId = 3` afterwards. -/
theorem writeIdSzReq_literal (p : Process) (w : World) :
    Process.writeIdSzReq p w = (p, { w with output := w.output ++ IDSZ_REQ }) ∧
    IDSZ_REQ = packFmt HEADER_FORMAT [11, 1, 0x00, 0x0107] ∧
    (Process.writeIdSzReq Process.init w).1.nextId = 3 := by
  refine ⟨rfl, by decide, rfl⟩

/-- C8: `writeContent` serializes the body, measures it, writes the packed
header (length field = body length + 11, the content's flags and code, the
current id) and only afterwards appends the body bytes: on the wire the
header always precedes the body. -/
theorem writeContent_header_before_body (c : Content) (p : Process) (w : World) :
    Process.writeContent c p w =
      ({ p with nextId := p.nextId + 2 },
       { w with output := w.output ++
           packFmt HEADER_FORMAT [c.body.length + 11, p.nextId, c.flags, c.code]
           ++ c.body }) := by
  simp [Process.writeContent, Process.writeHeader, World.writeBytes,
    List.append_assoc]

/-- C10: once `initialized` is set, `start` performs no transport reads or
writes, leaves the whole process state unchanged and returns normally. -/
theorem start_idempotent (p : Process) (w : World) (h : p.initialized = true) :
    Process.start p w = (.ok p, w) := by
  simp [Process.start, h]

theorem start_idempotent_witness :
    Process.start { Process.init with initialized := true } ⟨[7, 7], [9]⟩ =
      (.ok { Process.init with initialized := true }, ⟨[7, 7], [9]⟩) :=
  start_idempotent _ _ rfl

/-- C9: under the packet invariant (raw length field at least 11),
`readHeader` returns a non-negative body length, namely the raw length
minus 11. -/
theorem readHeader_body_length (w : World)
    (hinv : 11 ≤ unpackBE ((w.input.take 11).take 4)) :
    0 ≤ (Process.readHeader w).1.size ∧
    (Process.readHeader w).1.size =
      (unpackBE ((w.input.take 11).take 4) : Int) - 11 := by
  unfold Process.readHeader World.readBytes
  dsimp only
  simp only [unpackFmt, HEADER_FORMAT, List.getD_cons_zero, and_true]
  omega

/-- C1 counterexample: a bootstrap reply header with body length 20,
id 1 and flags 0x81 has the reply flag bit set, so the claim's condition
for raising `ProtocolError` is false — yet `readIdSzRes` raises
`ProtocolError`, because the source compares the flags byte against 0x80
for equality rather than testing the bit. -/
theorem readIdSzRes_flagbit_counterexample :
    ((Process.readIdSzRes Process.init
        ⟨[0, 0, 0, 31, 0, 0, 0, 1, 0x81, 0, 0] ++ List.replicate 20 0, []⟩).1 =
      Except.error (PErr.protocolError "expected first server message to be a response")) ∧
    (Process.readHeader
        ⟨[0, 0, 0, 31, 0, 0, 0, 1, 0x81, 0, 0] ++ List.replicate 20 0, []⟩).1.size = 20 ∧
    (Process.readHeader
        ⟨[0, 0, 0, 31, 0, 0, 0, 1, 0x81, 0, 0] ++ List.replicate 20 0, []⟩).1.flags &&& 0x80 = 0x80 ∧
    (Process.readHeader
        ⟨[0, 0, 0, 31, 0, 0, 0, 1, 0x81, 0, 0] ++ List.replicate 20 0, []⟩).1.ident = 1 := by
  refine ⟨rfl, by decide, by decide, by decide⟩

/-- C1 (amended): `readIdSzRes` raises `ProtocolError` if and only if the
header's body length differs from 20, or the flags byte differs from 0x80
(equality, not merely the reply bit), or the reply id differs from 1; in
particular a reply with flags 0x00 raises `ProtocolError`. -/
theorem readIdSzRes_error_iff (p : Process) (w : World) :
    ((∃ m, (Process.readIdSzRes p w).1 = Except.error (PErr.protocolError m)) ↔
      ((Process.readHeader w).1.size ≠ 20 ∨ (Process.readHeader w).1.flags ≠ 0x80 ∨
        (Process.readHeader w).1.ident ≠ 1)) ∧
    ((Process.readHeader w).1.flags = 0x00 →
      ∃ m, (Process.readIdSzRes p w).1 = Except.error (PErr.protocolError m)) := by
  rcases hrh : Process.readHeader w with ⟨head, w1⟩
  unfold Process.readIdSzRes
  rw [hrh]
  dsimp only
  by_cases h1 : head.size = 20 <;> by_cases h2 : head.flags = 0x80 <;>
    by_cases h3 : head.ident = 1 <;> simp [h1, h2, h3]

theorem readIdSzRes_error_iff_witness :
    ∃ m, (Process.readIdSzRes Process.init
        ⟨[0, 0, 0, 31, 0, 0, 0, 1, 0, 0, 0] ++ List.replicate 20 0, []⟩).1 =
      Except.error (PErr.protocolError m) :=
  (readIdSzRes_error_iff Process.init
      ⟨[0, 0, 0, 31, 0, 0, 0, 1, 0, 0, 0] ++ List.replicate 20 0, []⟩).2 (by decide)

/-- C6: on a valid bootstrap reply (raw length 31 = body 20, id 1, flags
0x80), `readIdSzRes` consumes exactly the 20 body bytes, unpacks them as
five 32-bit integers and configures both the receive and the transmit
codec with exactly those five widths. -/
theorem readIdSzRes_configures (p : Process) (code s1 s2 s3 s4 s5 : Nat)
    (rest outp : List Byte) (hc : code < 256 ^ 2)
    (h1 : s1 < 256 ^ 4) (h2 : s2 < 256 ^ 4) (h3 : s3 < 256 ^ 4)
    (h4 : s4 < 256 ^ 4) (h5 : s5 < 256 ^ 4) :
    Process.readIdSzRes p
        ⟨packFmt HEADER_FORMAT [31, 1, 0x80, code] ++
          (packFmt [4, 4, 4, 4, 4] [s1, s2, s3, s4, s5] ++ rest), outp⟩ =
      (.ok { p with recvbuf := ⟨[s1, s2, s3, s4, s5]⟩,
                    xmitbuf := ⟨[s1, s2, s3, s4, s5]⟩ }, ⟨rest, outp⟩) := by
  have hlen : (packFmt [4, 4, 4, 4, 4] [s1, s2, s3, s4, s5]).length = 20 := by
    simp [packFmt, length_packBE]
  have hunp : unpackFmt [4, 4, 4, 4, 4]
      (packFmt [4, 4, 4, 4, 4] [s1, s2, s3, s4, s5]) = [s1, s2, s3, s4, s5] := by
    have h := unpackFmt_packFmt [4, 4, 4, 4, 4] [s1, s2, s3, s4, s5] [] rfl
    rw [List.append_nil] at h
    rw [h]
    norm_num at h1 h2 h3 h4 h5
    norm_num [Nat.mod_eq_of_lt, h1, h2, h3, h4, h5]
  unfold Process.readIdSzRes
  rw [readHeader_packFmt 31 1 0x80 code _ outp (by norm_num) (by norm_num)
    (by norm_num) hc]
  dsimp only
  norm_num [World.readBytes, take_append_of_length _ _ 20 hlen,
    drop_append_of_length _ _ 20 hlen, hunp]

theorem readIdSzRes_configures_witness :
    Process.readIdSzRes Process.init
        ⟨packFmt HEADER_FORMAT [31, 1, 0x80, 0] ++
          (packFmt [4, 4, 4, 4, 4] [4, 8, 8, 8, 4] ++ []), []⟩ =
      (.ok { Process.init with recvbuf := ⟨[4, 8, 8, 8, 4]⟩,
                               xmitbuf := ⟨[4, 8, 8, 8, 4]⟩ }, ⟨[], []⟩) :=
  readIdSzRes_configures Process.init 0 4 8 8 8 4 [] [] (by norm_num)
    (by norm_num) (by norm_num) (by norm_num) (by norm_num) (by norm_num)

/-- C4: packing a header via `writeHeader` (which adds 11 to the body
length and embeds the current id) and unpacking the emitted 11 bytes via
`readHeader` (which subtracts 11) recovers the original tuple exactly, for
every in-range body length, id, flags and code; `writeHeader` returns the
id it embedded. -/
theorem header_roundtrip (size flags code : Nat) (p : Process) (w : World)
    (hs : size + 11 < 256 ^ 4) (hi : p.nextId < 256 ^ 4)
    (hf : flags < 256 ^ 1) (hc : code < 256 ^ 2) :
    (Process.readHeader
        ⟨(Process.writeHeader size flags code p w).2.2.output.drop w.output.length,
         []⟩).1 =
      { size := (size : Int), ident := p.nextId, flags := flags, code := code } ∧
    (Process.writeHeader size flags code p w).1 = p.nextId := by
  refine ⟨?_, rfl⟩
  have hdrop : (Process.writeHeader size flags code p w).2.2.output.drop w.output.length
      = packFmt HEADER_FORMAT [size + 11, p.nextId, flags, code] ++ [] := by
    simp [Process.writeHeader, World.writeBytes,
      drop_append_of_length w.output _ w.output.length rfl]
  rw [hdrop, readHeader_packFmt (size + 11) p.nextId flags code [] [] hs hi hf hc]
  have hcast : ((size + 11 : Nat) : Int) - 11 = (size : Int) := by push_cast; ring
  simp [hcast]

theorem header_roundtrip_witness :
    5 + 11 < 256 ^ 4 ∧ Process.init.nextId < 256 ^ 4 ∧
      0x80 < 256 ^ 1 ∧ 0x0107 < 256 ^ 2 ∧
    ((Process.readHeader
        ⟨(Process.writeHeader 5 0x80 0x0107 Process.init ⟨[], [1, 2]⟩).2.2.output.drop
           ([1, 2] : List Byte).length, []⟩).1 =
      { size := (5 : Int), ident := 3, flags := 0x80, code := 0x0107 } ∧
    (Process.writeHeader 5 0x80 0x0107 Process.init ⟨[], [1, 2]⟩).1 = 3) :=
  ⟨by norm_num, by norm_num [Process.init, JdwpBuffer.init], by norm_num, by norm_num,
   header_roundtrip 5 0x80 0x0107 Process.init ⟨[], [1, 2]⟩
     (by norm_num) (by norm_num [Process.init, JdwpBuffer.init]) (by norm_num) (by norm_num)⟩

/-- C5: the id counter is seeded at 3 (`Process.init`) and advanced by
exactly 2 per request, so a sequence of N requests from a fresh-counter
state is assigned exactly the ids 3, 5, ..., 3 + 2(N-1), in order and
without duplicates or gaps; moreover `writeHeader` returns precisely the
id it packed into the emitted header bytes. -/
theorem id_assignment (reqs : List (Nat × Nat × Nat)) (p : Process) (w : World)
    (hp : p.nextId = 3) :
    (Process.writeRequests reqs p w).1 =
      (List.range reqs.length).map (fun k => 3 + 2 * k) ∧
    Process.init.nextId = 3 ∧
    (∀ s f c, (Process.writeHeader s f c p w).2.2.output =
      w.output ++
        packFmt HEADER_FORMAT [s + 11, (Process.writeHeader s f c p w).1, f, c]) := by
  refine ⟨?_, rfl, fun s f c => rfl⟩
  rw [writeRequests_ids, hp]

theorem id_assignment_witness :
    (Process.writeRequests [(0, 0, 1), (0, 0, 2), (0, 0, 3)] Process.init ⟨[], []⟩).1 =
      [3, 5, 7] :=
  (id_assignment [(0, 0, 1), (0, 0, 2), (0, 0, 3)] Process.init ⟨[], []⟩ rfl).1.trans
    (by decide)

theorem readHeader_body_length_witness :
    11 ≤ unpackBE ((([0, 0, 0, 31, 0, 0, 0, 1, 128, 0, 0] : List Byte).take 11).take 4) ∧
    0 ≤ (Process.readHeader ⟨[0, 0, 0, 31, 0, 0, 0, 1, 128, 0, 0], []⟩).1.size :=
  ⟨by decide,
   (readHeader_body_length ⟨[0, 0, 0, 31, 0, 0, 0, 1, 128, 0, 0], []⟩ (by decide)).1⟩

/-- C2: if the peer's echo differs (in length or content) from the
handshake token, `readHandshake` fails and a `start` on a fresh process
fails the same way, having written nothing beyond the handshake token —
the bootstrap request is never sent; on an exact echo `readHandshake`
returns normally.  What propagates on mismatch, however, is not
`HandshakeError`: `HandshakeError.__init__` calls `Error.__init__` on the
undefined name `Error`, so constructing the exception raises `NameError`. -/
theorem handshake_gate (w : World) :
    (w.input.take HANDSHAKE_MSG.length ≠ HANDSHAKE_MSG →
      (Process.readHandshake w).1 = .error (PErr.nameError "Error") ∧
      (Process.start Process.init w).1 = .error (PErr.nameError "Error") ∧
      (Process.start Process.init w).2.output = w.output ++ HANDSHAKE_MSG) ∧
    (w.input.take HANDSHAKE_MSG.length = HANDSHAKE_MSG →
      (Process.readHandshake w).1 = .ok ()) := by
  constructor
  · intro hne
    have hrh : ∀ outp, Process.readHandshake ⟨w.input, outp⟩ =
        (.error (.nameError "Error"), ⟨w.input.drop HANDSHAKE_MSG.length, outp⟩) := by
      intro outp
      simp [Process.readHandshake, World.readBytes, hne]
    refine ⟨by rw [show w = ⟨w.input, w.output⟩ from rfl, hrh], ?_, ?_⟩ <;>
      simp [Process.start, Process.init, Process.writeHandshake, World.writeBytes, hrh]
  · intro heq
    simp [Process.readHandshake, World.readBytes, heq]

theorem handshake_gate_witness :
    (([1, 2, 3] : List Byte).take HANDSHAKE_MSG.length ≠ HANDSHAKE_MSG) ∧
    (Process.start Process.init ⟨[1, 2, 3], []⟩).1 = .error (PErr.nameError "Error") ∧
    (Process.start Process.init ⟨[1, 2, 3], []⟩).2.output = [] ++ HANDSHAKE_MSG :=
  ⟨by decide,
   ((handshake_gate ⟨[1, 2, 3], []⟩).1 (by decide)).2.1,
   ((handshake_gate ⟨[1, 2, 3], []⟩).1 (by decide)).2.2⟩

/-- The reader loop stops (without failing) when less than a full header
remains. -/
theorem run_short (pend : List Nat) (input : List Byte)
    (h : input.length < 11) :
    Process.run pend input = ⟨[], [], pend, input⟩ := by
  unfold Process.run
  rw [dif_pos h]

/-- C3: one iteration of the reader loop on a stream beginning with a
packed header followed by exactly the announced number of body bytes:
the loop consumes the 11 header bytes plus exactly `size` body bytes and
continues on the remainder; a packet with flag bit 0x80 set is a reply,
delivered to the pending call with the matching id (which is removed),
or silently dropped — the loop keeps running — when no pending id
matches; a packet with the flag bit clear is appended to the event
stream.  The loop itself is total: it runs until less than a full header
remains. -/
theorem run_step (size ident flags code : Nat) (body rest : List Byte)
    (pend : List Nat) (hb : body.length = size) (hs : size + 11 < 256 ^ 4)
    (hi : ident < 256 ^ 4) (hf : flags < 256 ^ 1) (hc : code < 256 ^ 2) :
    Process.run pend
        (packFmt HEADER_FORMAT [size + 11, ident, flags, code] ++ (body ++ rest)) =
      if flags &&& 0x80 = 0x80 then
        if ident ∈ pend then
          let r := Process.run (pend.erase ident) rest
          ⟨(ident, code, body) :: r.delivered, r.events, r.pending, r.leftover⟩
        else Process.run pend rest
      else
        let r := Process.run pend rest
        ⟨r.delivered, (code, body) :: r.events, r.pending, r.leftover⟩ := by
  have hhlen := length_packFmt_header (size + 11) ident flags code
  have hlen : (packFmt HEADER_FORMAT [size + 11, ident, flags, code] ++
      (body ++ rest)).length = 11 + (size + rest.length) := by
    simp [hhlen, hb]
  rw [Process.run.eq_def]
  rw [dif_neg (by rw [hlen]; omega)]
  rw [readHeader_packFmt (size + 11) ident flags code (body ++ rest) [] hs hi hf hc]
  have htn : (((size + 11 : Nat) : Int) - 11).toNat = size := by omega
  have hdrop11 : (packFmt HEADER_FORMAT [size + 11, ident, flags, code] ++
      (body ++ rest)).drop 11 = body ++ rest :=
    drop_append_of_length _ _ 11 hhlen
  dsimp only
  rw [htn, hdrop11, take_append_of_length body rest size hb,
    drop_append_of_length body rest size hb]

theorem run_step_witness :
    (([9, 9] : List Byte).length = 2 ∧ 2 + 11 < 256 ^ 4 ∧ 3 < 256 ^ 4 ∧
      0x80 < 256 ^ 1 ∧ 0 < 256 ^ 2) ∧
    Process.run [3, 5]
        (packFmt HEADER_FORMAT [2 + 11, 3, 0x80, 0] ++ ([9, 9] ++ [])) =
      ⟨[(3, 0, [9, 9])], [], [5], []⟩ :=
  ⟨⟨rfl, by norm_num, by norm_num, by norm_num, by norm_num⟩,
   (run_step 2 3 0x80 0 [9, 9] [] [3, 5] rfl (by norm_num) (by norm_num)
       (by norm_num) (by norm_num)).trans
     (by rw [if_pos (by norm_num), if_pos (by norm_num [List.mem_cons])]
         simp [run_short])⟩
